import Mathlib

/-!
Verification of the SqStream adapter (src/index.js).

Shallow embedding of the SqStream duplex-stream adapter.  The adapter's
mutable instance fields become the record `SqState`; every method of
`SqStream.prototype` becomes a state-passing function.  Asynchronous
queue-service calls (`getQueueUrl`, `receiveMessage`, `deleteMessageBatch`,
`sendMessageBatch`) are modelled by passing their outcome in as an
`Except String _` parameter; the observable actions of a method (network
calls issued, `push`es to the readable side, `emit('error')`, invoking a
write callback, appending to the pending-write buffer) are recorded in an
event trace.  JS promise results that the source discards are discarded
here in the same places.
-/

namespace SqStream

/-- An SQS message as consumed by the read side (`MessageId`,
`ReceiptHandle`, `Body`). -/
structure Message where
  messageId : String
  receiptHandle : String
  body : String
deriving DecidableEq, Repr

/-- One entry of a `deleteMessageBatch` request, built in
`deleteMessages` (src/index.js lines 92-97). -/
structure DeleteEntry where
  id : String
  receiptHandle : String
deriving DecidableEq, Repr

/-- One entry of a `sendMessageBatch` request, built in `processWrites`
(src/index.js lines 167-174): `Id` is the stringified index inside the
batch, `MessageBody` the payload. -/
structure SendEntry where
  id : String
  messageBody : String
deriving DecidableEq, Repr

/-- Observable actions of the adapter, in the order they occur. -/
inductive Event where
  /-- an `sqs.getQueueUrl` network call was issued -/
  | lookupIssued
  /-- an `sqs.receiveMessage` call was issued with the given
  `MaxNumberOfMessages` and `VisibilityTimeout` parameters -/
  | receiveCall (maxN : Nat) (visibility : Nat)
  /-- an `sqs.deleteMessageBatch` call was issued -/
  | deleteBatchCall (entries : List DeleteEntry)
  /-- an `sqs.sendMessageBatch` call was issued -/
  | sendBatch (entries : List SendEntry)
  /-- a message was pushed to the readable side (`this.push(message)`) -/
  | pushMessage (m : Message)
  /-- end of output was signalled (`this.push(null)`) -/
  | pushNull
  /-- `this.emit('error', e)` — the adapter's error channel -/
  | emitError (e : String)
  /-- the `_write` completion callback was invoked -/
  | callbackInvoked
  /-- a payload was appended to `this._pendingWrites` -/
  | bufferAppended
deriving DecidableEq, Repr

/-- The mutable instance state of an `SqStream` object
(src/index.js lines 29-33). -/
structure SqState where
  /-- `this._queueUrl`, `null` until the first successful lookup -/
  queueUrl : Option String
  /-- `this._inFlightAcks` -/
  inFlightAcks : Int
  /-- `this._waitingToEnd` -/
  waitingToEnd : Bool
  /-- `this._pendingWrites` -/
  pendingWrites : List String
  /-- `this._sendingMessages` -/
  sendingMessages : Bool
deriving DecidableEq, Repr

/-- `this.maxMessageSize` (src/index.js line 23). -/
def maxMessageSize : Nat := 262144

/-- `this.maxMessagesPerSend` (src/index.js line 24). -/
def maxMessagesPerSend : Nat := 10

/-- `this.maxMessagesPerGet` (src/index.js line 25). -/
def maxMessagesPerGet : Nat := 10

/-- `this.visibilityTimeout` (src/index.js line 26). -/
def visibilityTimeout : Nat := 30

/-- The state set up by the constructor (src/index.js lines 29-33). -/
def initState : SqState :=
  { queueUrl := none
    inFlightAcks := 0
    waitingToEnd := false
    pendingWrites := []
    sendingMessages := false }

/-- `SqStream.prototype.getUrl` (src/index.js lines 42-63): resolve the
queue URL, caching it after the first successful lookup.  `lookup` is the
outcome the SQS service would give to a `getQueueUrl` call issued now; it
is consulted only when the cache is empty.  On failure nothing is cached
and the error is surfaced as the rejection of the returned promise. -/
def getUrl (s : SqState) (lookup : Except String String) :
    SqState × List Event × Except String String :=
  match s.queueUrl with
  | some url => (s, [], .ok url)
  | none =>
    match lookup with
    | .ok url => ({ s with queueUrl := some url }, [.lookupIssued], .ok url)
    | .error e => (s, [.lookupIssued], .error e)

/-- `SqStream.prototype.getMessages` (src/index.js lines 69-81): resolve
the URL, issue `receiveMessage`, and yield `data.Messages`.  In the AWS
response `Messages` may be absent, which is modelled by
`Option (List Message)`: `none` is an absent field, `some []` a present
empty array. -/
def getMessages (s : SqState) (lookup : Except String String)
    (recv : Except String (Option (List Message))) :
    SqState × List Event × Except String (Option (List Message)) :=
  match getUrl s lookup with
  | (s1, evs, .error e) => (s1, evs, .error e)
  | (s1, evs, .ok _) =>
    (s1, evs ++ [.receiveCall maxMessagesPerGet visibilityTimeout], recv)

/-- `SqStream.prototype.deleteMessages` (src/index.js lines 88-114):
acknowledge a batch.  With zero entries the promise resolves without any
network call; otherwise the URL is resolved (a `getUrl` failure rejects
the promise via `.fail(deferred.reject)`) and `deleteMessageBatch` is
issued, whose outcome `deleteRes` settles the promise. -/
def deleteMessages (s : SqState) (messages : List Message)
    (lookup : Except String String) (deleteRes : Except String Unit) :
    SqState × List Event × Except String Unit :=
  let entries := messages.map fun m => DeleteEntry.mk m.messageId m.receiptHandle
  if entries.length = 0 then (s, [], .ok ())
  else
    match getUrl s lookup with
    | (s1, evs, .error e) => (s1, evs, .error e)
    | (s1, evs, .ok _) => (s1, evs ++ [.deleteBatchCall entries], deleteRes)

/-- Outcome of the promise returned by `handleMessages`. -/
inductive HandleOutcome where
  /-- `deferred.resolve(false)` already happened -/
  | resolvedFalse
  /-- the draining interval was started; resolution is deferred to it -/
  | draining
  /-- the success path never resolves the deferred (src/index.js lines
  137-144 resolve it on neither branch of a successful delete) -/
  | pending
  /-- `deferred.reject(e)` via `.fail` -/
  | rejected (e : String)
deriving DecidableEq, Repr

/-- `SqStream.prototype.handleMessages` (src/index.js lines 121-148).
`messages` is `data.Messages` from `getMessages`; the guard
`if (! messages)` is falsy only for an absent field (`none`), since an
empty JS array is truthy.  On a batch: increment `_inFlightAcks`, delete
the batch, push every message on success (in order), and decrement the
counter in `.fin` regardless of outcome. -/
def handleMessages (s : SqState) (messages : Option (List Message))
    (lookup : Except String String) (deleteRes : Except String Unit) :
    SqState × List Event × HandleOutcome :=
  if s.waitingToEnd then (s, [], .resolvedFalse)
  else
    match messages with
    | none => ({ s with waitingToEnd := true }, [], .draining)
    | some ms =>
      let s1 := { s with inFlightAcks := s.inFlightAcks + 1 }
      match deleteMessages s1 ms lookup deleteRes with
      | (s2, evs, .ok _) =>
        ({ s2 with inFlightAcks := s2.inFlightAcks - 1 },
          evs ++ ms.map Event.pushMessage, .pending)
      | (s2, evs, .error e) =>
        ({ s2 with inFlightAcks := s2.inFlightAcks - 1 }, evs, .rejected e)

/-- One firing of the draining interval started in `handleMessages`
(src/index.js lines 128-134): while `_inFlightAcks > 0` do nothing;
otherwise clear the interval, `push(null)` and resolve.  The returned
`Bool` records whether the interval fired (was cleared) this tick. -/
def drainTick (s : SqState) : SqState × List Event × Bool :=
  if s.inFlightAcks > 0 then (s, [], false)
  else (s, [.pushNull], true)

/-- `SqStream.prototype._read` (src/index.js lines 153-155):
`this.getMessages().then(this.handleMessages.bind(this))`.  No rejection
handler is attached and the resulting promise is dropped, so both a
`getMessages` failure and the `HandleOutcome` vanish silently. -/
def _read (s : SqState) (lookup : Except String String)
    (recv : Except String (Option (List Message)))
    (lookup2 : Except String String) (deleteRes : Except String Unit) :
    SqState × List Event :=
  match getMessages s lookup recv with
  | (s1, evs1, .error _) => (s1, evs1)
  | (s1, evs1, .ok msgs) =>
    match handleMessages s1 msgs lookup2 deleteRes with
    | (s2, evs2, _) => (s2, evs1 ++ evs2)

/-- `SqStream.prototype.processWrites` (src/index.js lines 160-187): no-op
on an empty buffer; otherwise set the busy flag, atomically swap the buffer
out, number the entries with their stringified batch index, resolve the URL
and issue `sendMessageBatch`.  The send callback clears the busy flag and
emits the error, if any, on the adapter's error channel.  A `getUrl`
failure has no handler (`.then` only), so the busy flag is never cleared
and nothing is emitted on that path. -/
def processWrites (s : SqState) (lookup : Except String String)
    (sendRes : Except String Unit) : SqState × List Event :=
  if s.pendingWrites.length = 0 then (s, [])
  else
    let pendingWrites := s.pendingWrites
    let s1 := { s with sendingMessages := true, pendingWrites := [] }
    let entries := pendingWrites.enum.map fun p => SendEntry.mk (toString p.1) p.2
    match getUrl s1 lookup with
    | (s2, evs, .error _) => (s2, evs)
    | (s2, evs, .ok _) =>
      match sendRes with
      | .ok _ =>
        ({ s2 with sendingMessages := false }, evs ++ [.sendBatch entries])
      | .error e =>
        ({ s2 with sendingMessages := false },
          evs ++ [.sendBatch entries, .emitError e])

/-- `SqStream.prototype.readyForWrite` (src/index.js lines 197-215).
`message` is the optional candidate payload: `_write` passes it, while the
retry interval and the post-append check in `queueWrite` call
`readyForWrite()` with it `undefined` (`none`).  The size accumulator
starts from the candidate's byte length (`Buffer.byteLength`, UTF-8) and
folds the buffered payloads over it, exactly as the JS `reduce`. -/
def readyForWrite (s : SqState) (message : Option String) : Bool :=
  if s.pendingWrites.length ≥ maxMessagesPerSend then false
  else if s.sendingMessages then false
  else
    let size := s.pendingWrites.foldl (fun sum m => sum + m.utf8ByteSize)
      (match message with
       | some m => m.utf8ByteSize
       | none => 0)
    if size + size ≥ maxMessageSize then false
    else true

/-- `SqStream.prototype.queueWrite` (src/index.js lines 189-195): invoke
the completion callback first, then append the payload to the buffer, then
flush if the buffer is no longer ready (note: the post-append check passes
no candidate). -/
def queueWrite (s : SqState) (message : String)
    (lookup : Except String String) (sendRes : Except String Unit) :
    SqState × List Event :=
  let s1 := { s with pendingWrites := s.pendingWrites ++ [message] }
  if readyForWrite s1 none then (s1, [.callbackInvoked, .bufferAppended])
  else
    match processWrites s1 lookup sendRes with
    | (s2, evs) => (s2, [.callbackInvoked, .bufferAppended] ++ evs)

/-- The value passed to `_write`, tagged by its JS type, each carrying the
result of its total textual conversion (`Buffer.prototype.toString`,
`JSON.stringify`, `toString`) used on src/index.js lines 224-231. -/
inductive WriteInput where
  /-- a JS string (used verbatim) -/
  | strVal (s : String)
  /-- a Buffer whose UTF-8 decoding is the given string -/
  | bufferVal (s : String)
  /-- a non-string object whose `JSON.stringify` is the given string -/
  | objVal (s : String)
  /-- any other primitive, via its `toString` -/
  | otherVal (s : String)
deriving DecidableEq, Repr

/-- The payload normalization at the top of `_write`
(src/index.js lines 224-231). -/
def coerceMessage : WriteInput → String
  | .strVal s => s
  | .bufferVal s => s
  | .objVal s => s
  | .otherVal s => s

/-- An `SqState` together with the payloads of deferred `_write` calls:
writes that failed immediate admission and are waiting on their 500 ms
retry interval (src/index.js lines 236-241), in registration order. -/
structure WriteSys where
  st : SqState
  deferred : List String
deriving DecidableEq, Repr

/-- `SqStream.prototype._write` (src/index.js lines 223-243): normalize
the payload, and either admit it now (the admission check *includes* the
candidate's size) or register it for retry on a 500 ms interval. -/
def _write (w : WriteSys) (input : WriteInput)
    (lookup : Except String String) (sendRes : Except String Unit) :
    WriteSys × List Event :=
  let message := coerceMessage input
  if readyForWrite w.st (some message) then
    match queueWrite w.st message lookup sendRes with
    | (s2, evs) => ({ w with st := s2 }, evs)
  else
    ({ w with deferred := w.deferred ++ [message] }, [])

/-- One firing of the oldest deferred write's retry interval
(src/index.js lines 236-241): the re-check is `this.readyForWrite()`
with no argument, so the candidate's size is *not* counted; when ready
the interval is cleared and the payload admitted via `queueWrite`. -/
def writeRetryTick (w : WriteSys) (lookup : Except String String)
    (sendRes : Except String Unit) : WriteSys × List Event :=
  match w.deferred with
  | [] => (w, [])
  | m :: rest =>
    if readyForWrite w.st none then
      match queueWrite w.st m lookup sendRes with
      | (s2, evs) => (⟨s2, rest⟩, evs)
    else (w, [])

/-- The `prefinish` hook installed by the constructor
(src/index.js line 35): closing the writable side runs `processWrites`
once. -/
def prefinishFlush (s : SqState) (lookup : Except String String)
    (sendRes : Except String Unit) : SqState × List Event :=
  processWrites s lookup sendRes

/-- Fold of `_write` over a sequence of inputs, accumulating the trace:
a producer submitting payloads one after the other. -/
def submitAll (w : WriteSys) (inputs : List WriteInput)
    (lookup : Except String String) (sendRes : Except String Unit) :
    WriteSys × List Event :=
  match inputs with
  | [] => (w, [])
  | input :: rest =>
    match _write w input lookup sendRes with
    | (w1, evs1) =>
      match submitAll w1 rest lookup sendRes with
      | (w2, evs2) => (w2, evs1 ++ evs2)

/-- One cooperative turn of the write side: a producer submits a payload,
a deferred write's retry interval fires, or the `prefinish` hook runs.
The event list is the turn's observable trace. -/
inductive SysStep : WriteSys → List Event → WriteSys → Prop where
  | submit (w : WriteSys) (input : WriteInput) (lookup : Except String String)
      (sendRes : Except String Unit) :
      SysStep w (_write w input lookup sendRes).2 (_write w input lookup sendRes).1
  | retry (w : WriteSys) (lookup : Except String String)
      (sendRes : Except String Unit) :
      SysStep w (writeRetryTick w lookup sendRes).2 (writeRetryTick w lookup sendRes).1
  | prefinish (w : WriteSys) (lookup : Except String String)
      (sendRes : Except String Unit) :
      SysStep w (prefinishFlush w.st lookup sendRes).2
        ⟨(prefinishFlush w.st lookup sendRes).1, w.deferred⟩

/-- Write-side states and traces reachable from a fresh adapter. -/
inductive Reach : WriteSys → List Event → Prop where
  | init : Reach ⟨initState, []⟩ []
  | step {w tr evs w'} : Reach w tr → SysStep w evs w' → Reach w' (tr ++ evs)

/-- Total `Buffer.byteLength` of a list of payloads. -/
def bytesOf (ws : List String) : Nat :=
  ws.foldl (fun sum m => sum + m.utf8ByteSize) 0

/-- Total byte length of the bodies of a send batch. -/
def sendEntriesBytes (entries : List SendEntry) : Nat :=
  entries.foldl (fun sum e => sum + e.messageBody.utf8ByteSize) 0

/-- Recognizer for `sendBatch` events. -/
def isSendBatch : Event → Bool
  | .sendBatch _ => true
  | _ => false

/-- Recognizer for `emitError` events. -/
def isEmitError : Event → Bool
  | .emitError _ => true
  | _ => false

/-- Recognizer for `pushMessage` events. -/
def isPushMessage : Event → Bool
  | .pushMessage _ => true
  | _ => false

/-! Helper lemmas -/

theorem foldl_add_bytes (l : List String) (init : Nat) :
    l.foldl (fun sum m => sum + m.utf8ByteSize) init = init + bytesOf l := by
  induction l generalizing init with
  | nil => simp [bytesOf]
  | cons x xs ih =>
    simp only [List.foldl_cons, bytesOf] at *
    rw [ih, ih (0 + x.utf8ByteSize)]
    omega

theorem bytesOf_cons (x : String) (xs : List String) :
    bytesOf (x :: xs) = x.utf8ByteSize + bytesOf xs := by
  show List.foldl _ 0 (x :: xs) = _
  simp only [List.foldl_cons]
  rw [foldl_add_bytes]
  simp only [bytesOf]
  omega

theorem bytesOf_append (l1 l2 : List String) :
    bytesOf (l1 ++ l2) = bytesOf l1 + bytesOf l2 := by
  induction l1 with
  | nil => simp [bytesOf]
  | cons x xs ih => simp only [List.cons_append, bytesOf_cons, ih]; omega

/-- Candidate byte size used by `readyForWrite`'s accumulator init. -/
def candBytes : Option String → Nat
  | some m => m.utf8ByteSize
  | none => 0

theorem readyForWrite_eq_true_iff (s : SqState) (msg : Option String) :
    readyForWrite s msg = true ↔
      s.pendingWrites.length < maxMessagesPerSend ∧ s.sendingMessages = false ∧
      2 * (candBytes msg + bytesOf s.pendingWrites) < maxMessageSize := by
  unfold readyForWrite
  rw [foldl_add_bytes]
  cases msg <;> cases h : s.sendingMessages <;>
    simp [candBytes] <;> omega

theorem mem_getUrl_events {s : SqState} {lookup : Except String String} {e : Event}
    (h : e ∈ (getUrl s lookup).2.1) : e = Event.lookupIssued := by
  unfold getUrl at h
  cases hq : s.queueUrl <;> rw [hq] at h
  · cases lookup <;> simp at h <;> exact h
  · simp at h

theorem mem_deleteMessages_events {s : SqState} {ms : List Message}
    {lookup : Except String String} {dres : Except String Unit} {e : Event}
    (h : e ∈ (deleteMessages s ms lookup dres).2.1) :
    e = Event.lookupIssued ∨ ∃ en, e = Event.deleteBatchCall en := by
  unfold deleteMessages at h
  simp only at h
  split at h
  · simp at h
  · cases hu : getUrl s lookup with
    | mk s1 rest =>
      cases rest with
      | mk evs res =>
        rw [hu] at h
        cases res with
        | error err =>
          simp only at h
          left
          have := @mem_getUrl_events s lookup e
          rw [hu] at this
          exact this h
        | ok u =>
          simp only [List.mem_append] at h
          rcases h with h | h
          · left
            have := @mem_getUrl_events s lookup e
            rw [hu] at this
            exact this h
          · right
            simp at h
            exact ⟨_, h⟩

theorem handleMessages_waitingToEnd_mono (t : SqState) (m2 : Option (List Message))
    (l2 : Except String String) (d2 : Except String Unit)
    (h : t.waitingToEnd = true) :
    (handleMessages t m2 l2 d2).1.waitingToEnd = true := by
  unfold handleMessages
  rw [h]
  simpa using h

theorem pushNull_not_mem_handleMessages (t : SqState) (m2 : Option (List Message))
    (l2 : Except String String) (d2 : Except String Unit) :
    Event.pushNull ∉ (handleMessages t m2 l2 d2).2.1 := by
  intro hmem
  unfold handleMessages at hmem
  by_cases hw : t.waitingToEnd = true
  · rw [if_pos hw] at hmem
    simp at hmem
  · rw [if_neg hw] at hmem
    cases m2 with
    | none => simp at hmem
    | some ms =>
      simp only at hmem
      rcases hd : deleteMessages { t with inFlightAcks := t.inFlightAcks + 1 } ms l2 d2
        with ⟨s2, evs, res⟩
      rw [hd] at hmem
      have hevs : ∀ e ∈ evs, e = Event.lookupIssued ∨ ∃ en, e = Event.deleteBatchCall en := by
        intro e he
        have h3 := @mem_deleteMessages_events
          { t with inFlightAcks := t.inFlightAcks + 1 } ms l2 d2 e
        rw [hd] at h3
        exact h3 he
      cases res with
      | ok _ =>
        simp only [List.mem_append, List.mem_map] at hmem
        rcases hmem with hmem | ⟨m, _, hm⟩
        · rcases hevs _ hmem with h1 | ⟨en, h1⟩ <;> simp at h1
        · simp at hm
      | error e =>
        simp only at hmem
        rcases hevs _ hmem with h1 | ⟨en, h1⟩ <;> simp at h1

/-! Claim theorems -/

/-- C5 (confirmed): address resolution.  The first call (empty cache)
issues a lookup; after a successful lookup every subsequent `getUrl` call
returns the identical cached URL while issuing no further lookup; after a
failed lookup the error is surfaced to the caller, nothing is cached, and
the next call issues a fresh lookup. -/
theorem c5_address_cache (s : SqState) (u e : String) (lookup : Except String String) :
    (s.queueUrl = none → (getUrl s lookup).2.1 = [Event.lookupIssued]) ∧
    (s.queueUrl = some u → getUrl s lookup = (s, [], .ok u)) ∧
    (s.queueUrl = none →
      getUrl s (.ok u) = ({ s with queueUrl := some u }, [Event.lookupIssued], .ok u)) ∧
    (s.queueUrl = none →
      getUrl s (.error e) = (s, [Event.lookupIssued], .error e) ∧
      (getUrl s (.error e)).1.queueUrl = none ∧
      (getUrl (getUrl s (.error e)).1 (.ok u)).2.1 = [Event.lookupIssued]) := by
  refine ⟨?_, ?_, ?_, ?_⟩
  · intro h
    cases lookup <;> simp [getUrl, h]
  · intro h
    simp [getUrl, h]
  · intro h
    simp [getUrl, h]
  · intro h
    refine ⟨?_, ?_, ?_⟩ <;> simp [getUrl, h]

/-- Witness for C5 at concrete inputs: a fresh adapter caches the URL on
a successful lookup, and a cached adapter answers from the cache. -/
theorem c5_address_cache_witness :
    getUrl initState (.ok "https://q") =
      ({ initState with queueUrl := some "https://q" }, [Event.lookupIssued], .ok "https://q") ∧
    getUrl { initState with queueUrl := some "https://q" } (.error "boom") =
      ({ initState with queueUrl := some "https://q" }, [], .ok "https://q") :=
  ⟨(c5_address_cache initState "https://q" "x" (.ok "https://q")).2.2.1 rfl,
    (c5_address_cache { initState with queueUrl := some "https://q" } "https://q" "boom"
      (.error "boom")).2.1 rfl⟩

/-- C2 (confirmed): once draining has begun (`_waitingToEnd` was set),
`handleMessages` discards any later poll result without emitting anything
and leaves the state unchanged; the drain interval issues `push(null)`
only on a tick at which `_inFlightAcks` is zero (and issues nothing on
other ticks); `_waitingToEnd` is never unset by `handleMessages`; and
`handleMessages` itself never issues `push(null)`. -/
theorem c2_drain_protocol (s s' : SqState) (msgs : Option (List Message))
    (l : Except String String) (d : Except String Unit)
    (hw : s.waitingToEnd = true) (hnn : 0 ≤ s'.inFlightAcks) :
    handleMessages s msgs l d = (s, [], .resolvedFalse) ∧
    ((drainTick s').2.2 = true →
      s'.inFlightAcks = 0 ∧ (drainTick s').2.1 = [Event.pushNull]) ∧
    ((drainTick s').2.2 = false → (drainTick s').2.1 = []) ∧
    (∀ t m2 l2 d2, t.waitingToEnd = true →
      (handleMessages t m2 l2 d2).1.waitingToEnd = true) ∧
    (∀ t m2 l2 d2, Event.pushNull ∉ (handleMessages t m2 l2 d2).2.1) := by
  refine ⟨?_, ?_, ?_, ?_, ?_⟩
  · unfold handleMessages
    rw [hw]
    simp
  · unfold drainTick
    split
    · simp
    · intro _
      refine ⟨?_, rfl⟩
      omega
  · unfold drainTick
    split
    · simp
    · simp
  · intro t m2 l2 d2 ht
    exact handleMessages_waitingToEnd_mono t m2 l2 d2 ht
  · intro t m2 l2 d2
    exact pushNull_not_mem_handleMessages t m2 l2 d2

/-- Witness for C2: a draining adapter with one acknowledgment still in
flight discards a late 2-message poll result, and the drain tick at
counter 1 does not signal end-of-output. -/
theorem c2_drain_protocol_witness :
    handleMessages { initState with waitingToEnd := true, inFlightAcks := 1 }
        (some [⟨"i", "r", "b"⟩]) (.ok "u") (.ok ()) =
      ({ initState with waitingToEnd := true, inFlightAcks := 1 }, [], .resolvedFalse) ∧
    ((drainTick { initState with waitingToEnd := true, inFlightAcks := 1 }).2.2 = false →
      (drainTick { initState with waitingToEnd := true, inFlightAcks := 1 }).2.1 = []) :=
  ⟨(c2_drain_protocol { initState with waitingToEnd := true, inFlightAcks := 1 }
      { initState with waitingToEnd := true, inFlightAcks := 1 }
      (some [⟨"i", "r", "b"⟩]) (.ok "u") (.ok ()) rfl (by decide)).1,
    (c2_drain_protocol { initState with waitingToEnd := true, inFlightAcks := 1 }
      { initState with waitingToEnd := true, inFlightAcks := 1 }
      (some [⟨"i", "r", "b"⟩]) (.ok "u") (.ok ()) rfl (by decide)).2.2.1⟩

/-- C6 counterexample: the claim says an *empty list* from `receive`
also triggers draining.  It does not: `if (! messages)` is false for an
empty JS array (arrays are truthy), so on `some []` the adapter stays
active (`_waitingToEnd` remains `false`), emits nothing, and does not
signal end-of-input. -/
theorem c6_counterexample :
    (handleMessages initState (some []) (.ok "u") (.ok ())).1.waitingToEnd = false ∧
    (handleMessages initState (some []) (.ok "u") (.ok ())).2.1 = [] ∧
    (handleMessages initState (some []) (.ok "u") (.ok ())).2.2 = .pending := by
  decide

/-- C6 amended: the adapter enters Draining exactly when the receive
result carries *no message list at all* (an absent `Messages` field); a
present-but-empty list is processed as a zero-message batch: no delete
call, nothing emitted, counter unchanged, no draining.  When the list is
absent, `_waitingToEnd` is set, its associated resolution is deferred to
the drain interval, and that interval signals end-of-input (`push(null)`)
only on a tick at which `_inFlightAcks` is not positive. -/
theorem c6_amended_drain (s : SqState) (l : Except String String)
    (d : Except String Unit) (h : s.waitingToEnd = false) :
    handleMessages s none l d = ({ s with waitingToEnd := true }, [], .draining) ∧
    (handleMessages s (some []) l d).1.waitingToEnd = false ∧
    (handleMessages s (some []) l d).1.inFlightAcks = s.inFlightAcks ∧
    (handleMessages s (some []) l d).2.1 = [] ∧
    (∀ s', (drainTick s').2.2 = true →
      ¬ 0 < s'.inFlightAcks ∧ (drainTick s').2.1 = [Event.pushNull]) := by
  refine ⟨?_, ?_, ?_, ?_, ?_⟩
  · unfold handleMessages
    rw [h]
    simp
  · simp [handleMessages, h, deleteMessages]
  · simp [handleMessages, h, deleteMessages]
  · simp [handleMessages, h, deleteMessages]
  · intro s'
    unfold drainTick
    split
    · simp
    · intro _
      refine ⟨by omega, rfl⟩

/-- Witness for C6 (amended) on a fresh adapter: an absent message list
starts draining, and the zero-ack drain tick signals end-of-output. -/
theorem c6_amended_drain_witness :
    handleMessages initState none (.ok "u") (.ok ()) =
      ({ initState with waitingToEnd := true }, [], .draining) ∧
    ((drainTick initState).2.2 = true →
      ¬ 0 < initState.inFlightAcks ∧ (drainTick initState).2.1 = [Event.pushNull]) :=
  ⟨(c6_amended_drain initState (.ok "u") (.ok ()) rfl).1,
    (c6_amended_drain initState (.ok "u") (.ok ()) rfl).2.2.2.2 initState⟩

/-- The two-message batch used in the C1 counterexample. -/
def msgA : Message := ⟨"id-1", "rh-1", "body-1"⟩

/-- The second message of the C1 counterexample batch. -/
def msgB : Message := ⟨"id-2", "rh-2", "body-2"⟩

/-- An adapter state whose queue URL is already cached. -/
def readyState : SqState := { initState with queueUrl := some "https://queue" }

/-- C1 counterexample: `receive` returns 2 messages and
`deleteMessageBatch` fails.  The delete call *is* issued and no message is
pushed, and the counter returns to 0 — but, contrary to the claim, **zero**
(not one) fatal errors reach the adapter's error channel: the rejection
from `deleteMessages` propagates through `handleMessages`'s promise, which
`_read` drops without a handler, and `emit('error')` is never called on
the read path. -/
theorem c1_counterexample :
    (_read readyState (.ok "https://queue") (.ok (some [msgA, msgB]))
        (.ok "https://queue") (.error "denied")).2 =
      [Event.receiveCall 10 30,
        Event.deleteBatchCall [⟨"id-1", "rh-1"⟩, ⟨"id-2", "rh-2"⟩]] ∧
    (_read readyState (.ok "https://queue") (.ok (some [msgA, msgB]))
        (.ok "https://queue") (.error "denied")).2.filter isEmitError = [] ∧
    (_read readyState (.ok "https://queue") (.ok (some [msgA, msgB]))
        (.ok "https://queue") (.error "denied")).2.filter isPushMessage = [] ∧
    (_read readyState (.ok "https://queue") (.ok (some [msgA, msgB]))
        (.ok "https://queue") (.error "denied")).1.inFlightAcks = 0 := by
  decide

/-- C1 amended: for every received batch whose `deleteMessageBatch`
call fails, zero messages from the batch are pushed to the reader and
`_inFlightAcks` returns to its prior value — but no error is emitted on
the adapter's error channel either: the rejection only flows into the
promise that `_read` discards. -/
theorem c1_amended_delete_failure (s : SqState) (ms : List Message)
    (l r2 : Except String String) (e : String) :
    (_read s l (.ok (some ms)) r2 (.error e)).2.filter isPushMessage = [] ∧
    (_read s l (.ok (some ms)) r2 (.error e)).2.filter isEmitError = [] ∧
    (_read s l (.ok (some ms)) r2 (.error e)).1.inFlightAcks = s.inFlightAcks := by
  cases hw : s.waitingToEnd <;> cases hq : s.queueUrl <;> cases l <;> cases ms <;>
    simp [_read, getMessages, getUrl, handleMessages, deleteMessages, isPushMessage,
      isEmitError, hw, hq, List.filter]

/-- C3 (confirmed): for a batch returned by `receive` while the
adapter is active, on a successful `deleteMessageBatch` (with the queue
URL resolvable) the pushed messages are exactly the batch, in the order
the service returned them; when the delete call fails, or when the URL
lookup for the delete fails, nothing is pushed. -/
theorem c3_ordered_delivery (s : SqState) (ms : List Message) (u : String)
    (l : Except String String)
    (hActive : s.waitingToEnd = false)
    (hurl : s.queueUrl = some u ∨ l = .ok u) :
    (handleMessages s (some ms) l (.ok ())).2.1.filter isPushMessage =
      ms.map Event.pushMessage ∧
    (∀ e, (handleMessages s (some ms) l (.error e)).2.1.filter isPushMessage = []) ∧
    (∀ e', s.queueUrl = none →
      (handleMessages s (some ms) (.error e') (.ok ())).2.1.filter isPushMessage = []) := by
  refine ⟨?_, ?_, ?_⟩
  · rcases hurl with hurl | hurl
    · cases ms <;>
        simp [handleMessages, deleteMessages, getUrl, hActive, hurl, isPushMessage,
          List.filter_map, Function.comp_def, List.filter]
    · subst hurl
      cases hq : s.queueUrl <;> cases ms <;>
        simp [handleMessages, deleteMessages, getUrl, hActive, hq, isPushMessage,
          List.filter_map, Function.comp_def, List.filter]
  · intro e
    cases hq : s.queueUrl <;> cases l <;> cases ms <;>
      simp [handleMessages, deleteMessages, getUrl, hActive, hq, isPushMessage, List.filter]
  · intro e' hq
    cases ms <;>
      simp [handleMessages, deleteMessages, getUrl, hActive, hq, isPushMessage, List.filter]

/-- Witness for C3: an active cached adapter receiving 2 messages pushes
both, in order, when the delete succeeds, and pushes nothing when it
fails. -/
theorem c3_ordered_delivery_witness :
    (handleMessages readyState (some [msgA, msgB]) (.ok "https://queue")
        (.ok ())).2.1.filter isPushMessage =
      [Event.pushMessage msgA, Event.pushMessage msgB] ∧
    (handleMessages readyState (some [msgA, msgB]) (.ok "https://queue")
        (.error "denied")).2.1.filter isPushMessage = [] :=
  ⟨(c3_ordered_delivery readyState [msgA, msgB] "https://queue" (.ok "https://queue")
      rfl (.inr rfl)).1,
    (c3_ordered_delivery readyState [msgA, msgB] "https://queue" (.ok "https://queue")
      rfl (.inr rfl)).2.1 "denied"⟩

/-! Write-side helper lemmas -/

theorem getUrl_fields (s : SqState) (lookup : Except String String) :
    (getUrl s lookup).1.inFlightAcks = s.inFlightAcks ∧
    (getUrl s lookup).1.waitingToEnd = s.waitingToEnd ∧
    (getUrl s lookup).1.pendingWrites = s.pendingWrites ∧
    (getUrl s lookup).1.sendingMessages = s.sendingMessages := by
  unfold getUrl
  cases s.queueUrl
  · cases lookup <;> simp
  · simp

theorem sendingMessages_not_ready (s : SqState) (m : Option String)
    (h : s.sendingMessages = true) : readyForWrite s m = false := by
  unfold readyForWrite
  rw [h]
  split <;> simp

theorem processWrites_pending_nil (s : SqState) (l : Except String String)
    (r : Except String Unit) : (processWrites s l r).1.pendingWrites = [] := by
  unfold processWrites
  split
  · next h => exact List.length_eq_zero.mp h
  · rcases hu : getUrl { s with sendingMessages := true, pendingWrites := [] } l
      with ⟨s2, evs, res⟩
    have hp : s2.pendingWrites = ([] : List String) := by
      have := (getUrl_fields { s with sendingMessages := true, pendingWrites := [] } l).2.2.1
      rw [hu] at this
      exact this
    cases res with
    | error e => simpa [hu] using hp
    | ok u => cases r <;> simpa [hu] using hp

theorem processWrites_sendBatch {s : SqState} {l : Except String String}
    {r : Except String Unit} {entries : List SendEntry}
    (h : Event.sendBatch entries ∈ (processWrites s l r).2) :
    entries = s.pendingWrites.enum.map fun p => SendEntry.mk (toString p.1) p.2 := by
  unfold processWrites at h
  split at h
  · simp at h
  · simp only at h
    rcases hu : getUrl { s with sendingMessages := true, pendingWrites := [] } l
      with ⟨s2, evs, res⟩
    rw [hu] at h
    have hevs : ∀ e ∈ evs, e = Event.lookupIssued := by
      intro e he
      have h3 := @mem_getUrl_events
        { s with sendingMessages := true, pendingWrites := [] } l e
      rw [hu] at h3
      exact h3 he
    cases res with
    | error e =>
      simp only at h
      have := hevs _ h
      simp at this
    | ok u =>
      cases r with
      | ok _ =>
        simp only [List.mem_append] at h
        rcases h with h | h
        · have := hevs _ h
          simp at this
        · simp at h
          exact h
      | error e =>
        simp only [List.mem_append, List.mem_cons] at h
        rcases h with h | h | h
        · have := hevs _ h
          simp at this
        · simp at h
          exact h
        · simp at h

theorem processWrites_batch_length {s : SqState} {l : Except String String}
    {r : Except String Unit} {entries : List SendEntry}
    (h : Event.sendBatch entries ∈ (processWrites s l r).2) :
    entries.length = s.pendingWrites.length := by
  rw [processWrites_sendBatch h]
  simp [List.enum]

theorem queueWrite_inv (s : SqState) (m : String) (l : Except String String)
    (r : Except String Unit) (hlt : s.pendingWrites.length < maxMessagesPerSend) :
    (queueWrite s m l r).1.pendingWrites.length ≤ maxMessagesPerSend ∧
    ∀ entries, Event.sendBatch entries ∈ (queueWrite s m l r).2 →
      entries.length ≤ maxMessagesPerSend := by
  simp only [queueWrite]
  split
  · refine ⟨by simpa using hlt, ?_⟩
    intro entries hmem
    simp at hmem
  · rcases hp : processWrites { s with pendingWrites := s.pendingWrites ++ [m] } l r
      with ⟨s2, evs⟩
    refine ⟨?_, ?_⟩
    · have := processWrites_pending_nil { s with pendingWrites := s.pendingWrites ++ [m] } l r
      rw [hp] at this
      simp only at this
      simp [this]
    · intro entries hmem
      simp only [List.cons_append, List.nil_append, List.mem_cons] at hmem
      rcases hmem with hmem | hmem | hmem
      · exact absurd hmem (by simp)
      · exact absurd hmem (by simp)
      · have h2 := @processWrites_batch_length
          { s with pendingWrites := s.pendingWrites ++ [m] } l r entries
        rw [hp] at h2
        have h3 := h2 hmem
        simp at h3
        omega

theorem sysStep_inv {w : WriteSys} {evs : List Event} {w' : WriteSys}
    (hs : SysStep w evs w')
    (hlen : w.st.pendingWrites.length ≤ maxMessagesPerSend) :
    w'.st.pendingWrites.length ≤ maxMessagesPerSend ∧
    ∀ entries, Event.sendBatch entries ∈ evs → entries.length ≤ maxMessagesPerSend := by
  cases hs with
  | submit input lookup sendRes =>
    simp only [_write]
    split
    · next hready =>
      have hlt := ((readyForWrite_eq_true_iff _ _).mp hready).1
      rcases hq : queueWrite w.st (coerceMessage input) lookup sendRes with ⟨s2, evs2⟩
      have := queueWrite_inv w.st (coerceMessage input) lookup sendRes hlt
      rw [hq] at this
      exact this
    · exact ⟨hlen, by intro entries h; simp at h⟩
  | retry lookup sendRes =>
    simp only [writeRetryTick]
    cases hd : w.deferred with
    | nil => exact ⟨hlen, by intro entries h; simp at h⟩
    | cons m rest =>
      simp only
      split
      · next hready =>
        have hlt := ((readyForWrite_eq_true_iff _ _).mp hready).1
        rcases hq : queueWrite w.st m lookup sendRes with ⟨s2, evs2⟩
        have := queueWrite_inv w.st m lookup sendRes hlt
        rw [hq] at this
        exact this
      · exact ⟨hlen, by intro entries h; simp at h⟩
  | prefinish lookup sendRes =>
    refine ⟨?_, ?_⟩
    · have := processWrites_pending_nil w.st lookup sendRes
      unfold prefinishFlush
      simp [this]
    · intro entries hmem
      have h2 := @processWrites_batch_length w.st lookup sendRes entries hmem
      omega

theorem reach_batch_bound {w : WriteSys} {tr : List Event} (h : Reach w tr) :
    w.st.pendingWrites.length ≤ maxMessagesPerSend ∧
    ∀ entries, Event.sendBatch entries ∈ tr → entries.length ≤ maxMessagesPerSend := by
  induction h with
  | init => exact ⟨by simp [initState], by intro entries h; simp at h⟩
  | step hreach hstep ih =>
    obtain ⟨hlen, htr⟩ := ih
    obtain ⟨hlen', hevs⟩ := sysStep_inv hstep hlen
    refine ⟨hlen', ?_⟩
    intro entries hmem
    rcases List.mem_append.mp hmem with hmem | hmem
    · exact htr entries hmem
    · exact hevs entries hmem

theorem utf8_go_replicate (n : Nat) :
    String.utf8ByteSize.go (List.replicate n 'a') = n := by
  induction n with
  | zero => rfl
  | succ k ih =>
    rw [List.replicate_succ]
    show String.utf8ByteSize.go (List.replicate k 'a') + 'a'.utf8Size = k + 1
    rw [ih, show 'a'.utf8Size = 1 from rfl]

/-- A payload of 131072 ASCII bytes: exactly half the configured
`maxMessageSize`, so its doubled byte length equals the limit. -/
def bigMsg : String := String.mk (List.replicate 131072 'a')

theorem bigMsg_bytes : bigMsg.utf8ByteSize = 131072 :=
  utf8_go_replicate 131072

/-- C4 counterexample: submitting `bigMsg` (131072 bytes) to a fresh
adapter is deferred by `_write` (its doubled size reaches the configured
max), but the 500 ms retry re-checks `readyForWrite()` *without* the
candidate, admits it, and the resulting flush sends a batch whose doubled
total byte length equals — is not below — the configured max.  This
refutes both halves of the claim: a write is admitted although the
doubled buffered-plus-candidate size is not below the max, and a flushed
batch's doubled total byte length is not below the max. -/
theorem c4_overhalf_run (p : String) (hp : p.utf8ByteSize = 131072) :
    readyForWrite initState (some p) = false ∧
    _write ⟨initState, []⟩ (.strVal p) (.ok "u") (.ok ()) =
      (⟨initState, [p]⟩, []) ∧
    writeRetryTick ⟨initState, [p]⟩ (.ok "u") (.ok ()) =
      (⟨{ initState with queueUrl := some "u" }, []⟩,
        [Event.callbackInvoked, Event.bufferAppended, Event.lookupIssued,
          Event.sendBatch [⟨"0", p⟩]]) ∧
    ¬ 2 * (bytesOf initState.pendingWrites + p.utf8ByteSize) < maxMessageSize ∧
    ¬ 2 * sendEntriesBytes [⟨"0", p⟩] < maxMessageSize := by
  have hsome : readyForWrite initState (some p) = false := by
    simp [readyForWrite, initState, maxMessagesPerSend, maxMessageSize, hp]
  have hnone : readyForWrite initState none = true := by
    simp [readyForWrite, initState, maxMessagesPerSend, maxMessageSize]
  have hnone1 : readyForWrite { initState with pendingWrites := [p] } none = false := by
    simp [readyForWrite, initState, maxMessagesPerSend, maxMessageSize, hp]
  refine ⟨hsome, ?_, ?_, ?_, ?_⟩
  · rw [show _write ⟨initState, []⟩ (.strVal p) (.ok "u") (.ok ()) =
        (if readyForWrite initState (some p) = true then
          match queueWrite initState p (.ok "u") (.ok ()) with
          | (s2, evs) => (⟨s2, []⟩, evs)
        else (⟨initState, [p]⟩, [])) from rfl,
      hsome]
    simp only [Bool.false_eq_true, if_false]
  · rw [show writeRetryTick ⟨initState, [p]⟩ (.ok "u") (.ok ()) =
        (if readyForWrite initState none = true then
          match queueWrite initState p (.ok "u") (.ok ()) with
          | (s2, evs) => (⟨s2, []⟩, evs)
        else (⟨initState, [p]⟩, [])) from rfl,
      hnone]
    simp only [if_true]
    rw [show queueWrite initState p (.ok "u") (.ok ()) =
        (if readyForWrite { initState with pendingWrites := [p] } none = true then
          ({ initState with pendingWrites := [p] },
            [Event.callbackInvoked, Event.bufferAppended])
        else
          match processWrites { initState with pendingWrites := [p] } (.ok "u") (.ok ()) with
          | (s2, evs) => (s2, [Event.callbackInvoked, Event.bufferAppended] ++ evs)) from rfl,
      hnone1]
    simp only [Bool.false_eq_true, if_false]
    have hpw : processWrites { initState with pendingWrites := [p] } (.ok "u") (.ok ()) =
        ({ initState with queueUrl := some "u" },
          [Event.lookupIssued, Event.sendBatch [⟨"0", p⟩]]) := by
      unfold processWrites
      simp [getUrl, initState, List.enum, List.enumFrom]
      rfl
    rw [hpw]
    rfl
  · simp only [bytesOf, initState, List.foldl_nil, maxMessageSize, hp]
    omega
  · simp only [sendEntriesBytes, List.foldl_cons, List.foldl_nil, maxMessageSize, hp]
    omega

/-- C4 counterexample at the concrete input `bigMsg`: the write is
deferred by `_write`, admitted by the candidate-blind retry check, and
flushed as a batch whose doubled total byte length is not below the
configured max — refuting both the claimed admission condition and the
claimed bound on flushed batches. -/
theorem c4_counterexample :
    readyForWrite initState (some bigMsg) = false ∧
    _write ⟨initState, []⟩ (.strVal bigMsg) (.ok "u") (.ok ()) =
      (⟨initState, [bigMsg]⟩, []) ∧
    writeRetryTick ⟨initState, [bigMsg]⟩ (.ok "u") (.ok ()) =
      (⟨{ initState with queueUrl := some "u" }, []⟩,
        [Event.callbackInvoked, Event.bufferAppended, Event.lookupIssued,
          Event.sendBatch [⟨"0", bigMsg⟩]]) ∧
    ¬ 2 * (bytesOf initState.pendingWrites + bigMsg.utf8ByteSize) < maxMessageSize ∧
    ¬ 2 * sendEntriesBytes [⟨"0", bigMsg⟩] < maxMessageSize :=
  c4_overhalf_run bigMsg bigMsg_bytes

/-- C4 amended: the admission rule with the candidate's size applies
only to the *immediate* path of `_write`; the deferred-retry re-check
omits the candidate.  Precisely: a write is admitted immediately only
when the buffer holds fewer than 10 entries, no flush is in progress, and
the doubled sum of buffered byte lengths plus the candidate's byte length
is below the configured max; a deferred write is admitted on retry only
when the buffer holds fewer than 10 entries, no flush is in progress, and
the doubled sum of buffered byte lengths *alone* is below the max.
Consequently every flushed batch in every reachable trace has at most 10
entries — but its doubled byte total need not stay below the max (see the
counterexample). -/
theorem c4_amended_admission :
    (∀ s m, readyForWrite s (some m) = true →
      s.pendingWrites.length < maxMessagesPerSend ∧ s.sendingMessages = false ∧
      2 * (bytesOf s.pendingWrites + m.utf8ByteSize) < maxMessageSize) ∧
    (∀ s, readyForWrite s none = true →
      s.pendingWrites.length < maxMessagesPerSend ∧ s.sendingMessages = false ∧
      2 * bytesOf s.pendingWrites < maxMessageSize) ∧
    (∀ w tr, Reach w tr → ∀ entries, Event.sendBatch entries ∈ tr →
      entries.length ≤ maxMessagesPerSend) := by
  refine ⟨?_, ?_, ?_⟩
  · intro s m h
    have h2 := (readyForWrite_eq_true_iff s (some m)).mp h
    simp only [candBytes] at h2
    exact ⟨h2.1, h2.2.1, by omega⟩
  · intro s h
    have h2 := (readyForWrite_eq_true_iff s none).mp h
    simp only [candBytes] at h2
    exact ⟨h2.1, h2.2.1, by omega⟩
  · intro w tr hreach entries hmem
    exact (reach_batch_bound hreach).2 entries hmem

/-- Witness for C4 (amended): a fresh adapter admits a 2-byte payload and
satisfies the immediate-admission bounds, and the one-entry batch flushed
by a submit-then-prefinish trace respects the 10-entry bound. -/
theorem c4_amended_admission_witness :
    (initState.pendingWrites.length < maxMessagesPerSend ∧
      initState.sendingMessages = false ∧
      2 * (bytesOf initState.pendingWrites + "hi".utf8ByteSize) < maxMessageSize) ∧
    [SendEntry.mk "0" "a"].length ≤ maxMessagesPerSend :=
  ⟨c4_amended_admission.1 initState "hi" (by decide),
    c4_amended_admission.2.2 _ _
      (Reach.step
        (Reach.step Reach.init
          (SysStep.submit ⟨initState, []⟩ (WriteInput.strVal "a") (.ok "u") (.ok ())))
        (SysStep.prefinish _ (.ok "u") (.ok ())))
      [SendEntry.mk "0" "a"] (by decide)⟩

/-- A state with one buffered payload and a cached queue URL. -/
def flushState : SqState :=
  { initState with queueUrl := some "u", pendingWrites := ["x"] }

/-- C8 (confirmed): a flush that runs to completion (non-empty buffer
and resolvable URL, so `sendMessageBatch`'s callback fires) clears the
busy flag in both outcomes; on success no error is emitted, on failure
exactly one `emit('error')` fires on the adapter's error channel. -/
theorem c8_flush_completion (s : SqState) (u e : String) (lookup : Except String String)
    (hne : s.pendingWrites ≠ [])
    (hurl : s.queueUrl = some u ∨ (s.queueUrl = none ∧ lookup = .ok u)) :
    ((processWrites s lookup (.ok ())).1.sendingMessages = false ∧
      (processWrites s lookup (.ok ())).2.filter isEmitError = []) ∧
    ((processWrites s lookup (.error e)).1.sendingMessages = false ∧
      (processWrites s lookup (.error e)).2.filter isEmitError = [Event.emitError e]) := by
  have hlen : ¬ s.pendingWrites.length = 0 := by simpa using hne
  rcases hurl with hq | ⟨hq, hl⟩
  · refine ⟨⟨?_, ?_⟩, ⟨?_, ?_⟩⟩ <;>
      simp [processWrites, getUrl, hq, hlen, isEmitError, List.filter]
  · subst hl
    refine ⟨⟨?_, ?_⟩, ⟨?_, ?_⟩⟩ <;>
      simp [processWrites, getUrl, hq, hlen, isEmitError, List.filter]

/-- Witness for C8 at `flushState`: success clears the flag without an
error event; failure clears the flag and emits exactly one error. -/
theorem c8_flush_completion_witness :
    ((processWrites flushState (.ok "u") (.ok ())).1.sendingMessages = false ∧
      (processWrites flushState (.ok "u") (.ok ())).2.filter isEmitError = []) ∧
    ((processWrites flushState (.ok "u") (.error "down")).1.sendingMessages = false ∧
      (processWrites flushState (.ok "u") (.error "down")).2.filter isEmitError =
        [Event.emitError "down"]) :=
  c8_flush_completion flushState "u" "down" (.ok "u") (by decide) (.inl rfl)

/-- C9 (confirmed): when the URL lookup fails during a flush (no
cached URL), `processWrites` has already set the busy flag and emptied
the buffer, and its `getUrl(...).then(...)` chain has no failure handler:
the result state keeps `_sendingMessages = true`, the swapped-out batch
is gone, and no error (indeed no further event) is produced.  Any state
with the busy flag set refuses every admission check, and from the stuck
state (busy flag set, empty buffer) every write-side step — submit,
retry tick, prefinish — leaves the stuck state intact and produces no
events, so later writes are deferred indefinitely. -/
theorem c9_lost_flush (s : SqState) (e : String) (sendRes : Except String Unit)
    (hne : s.pendingWrites ≠ []) (hmiss : s.queueUrl = none) :
    processWrites s (.error e) sendRes =
      ({ s with sendingMessages := true, pendingWrites := [] }, [Event.lookupIssued]) ∧
    (∀ s' m, s'.sendingMessages = true → readyForWrite s' m = false) ∧
    (∀ w evs w', w.st.sendingMessages = true → w.st.pendingWrites = [] →
      SysStep w evs w' →
      w'.st.sendingMessages = true ∧ w'.st.pendingWrites = [] ∧ evs = []) := by
  refine ⟨?_, ?_, ?_⟩
  · have hlen : ¬ s.pendingWrites.length = 0 := by simpa using hne
    simp [processWrites, getUrl, hmiss, hlen]
  · exact fun s' m h => sendingMessages_not_ready s' m h
  · intro w evs w' hsend hpend hstep
    have hrw : ∀ m, readyForWrite w.st m = false :=
      fun m => sendingMessages_not_ready w.st m hsend
    cases hstep with
    | submit input lookup sendRes2 =>
      simp [_write, hrw, hsend, hpend]
    | retry lookup sendRes2 =>
      cases hd : w.deferred with
      | nil => simp [writeRetryTick, hd, hsend, hpend]
      | cons m rest => simp [writeRetryTick, hd, hrw, hsend, hpend]
    | prefinish lookup sendRes2 =>
      simp [prefinishFlush, processWrites, hpend, hsend]

/-- Witness for C9: a fresh adapter with one buffered payload whose
lookup fails ends stuck (busy flag set, buffer lost, only the lookup
event), and the stuck state refuses a new admission. -/
theorem c9_lost_flush_witness :
    processWrites { initState with pendingWrites := ["x"] } (.error "boom") (.ok ()) =
      ({ { initState with pendingWrites := ["x"] } with
          sendingMessages := true, pendingWrites := [] }, [Event.lookupIssued]) ∧
    readyForWrite { initState with sendingMessages := true } (some "y") = false :=
  ⟨(c9_lost_flush { initState with pendingWrites := ["x"] } "boom" (.ok ())
      (by decide) rfl).1,
    (c9_lost_flush { initState with pendingWrites := ["x"] } "boom" (.ok ())
      (by decide) rfl).2.1 { initState with sendingMessages := true } (some "y") rfl⟩

/-- A state whose buffer already holds 9 entries, so one more admission
fills it and triggers an immediate flush. -/
def nineState : SqState := { initState with pendingWrites := List.replicate 9 "x" }

/-- C10 (confirmed): `queueWrite` invokes the producer's completion
callback *before* appending the payload to the buffer and before any
flush events; concretely, on a full buffer whose flush dies in a failed
URL lookup, the callback still fired although no `sendMessageBatch` call
was ever made — so write completion never implies the payload reached
the queue service. -/
theorem c10_callback_before_buffer (s : SqState) (m : String)
    (lookup : Except String String) (sendRes : Except String Unit) :
    (∃ rest, (queueWrite s m lookup sendRes).2 =
      Event.callbackInvoked :: Event.bufferAppended :: rest) ∧
    (queueWrite nineState "y" (.error "down") (.ok ())).2 =
      [Event.callbackInvoked, Event.bufferAppended, Event.lookupIssued] ∧
    (queueWrite nineState "y" (.error "down") (.ok ())).2.filter isSendBatch = [] := by
  refine ⟨?_, by decide, by decide⟩
  simp only [queueWrite]
  split
  · exact ⟨[], rfl⟩
  · rcases hp : processWrites
        { s with pendingWrites := s.pendingWrites ++ [m] } lookup sendRes with ⟨s2, evs⟩
    exact ⟨evs, rfl⟩

theorem submitAll_strings (ws : List String) :
    ∀ (w : WriteSys) (lookup : Except String String) (sendRes : Except String Unit),
      w.st.sendingMessages = false →
      w.st.pendingWrites.length + ws.length < maxMessagesPerSend →
      2 * (bytesOf w.st.pendingWrites + bytesOf ws) < maxMessageSize →
      (submitAll w (ws.map WriteInput.strVal) lookup sendRes).1 =
        ⟨{ w.st with pendingWrites := w.st.pendingWrites ++ ws }, w.deferred⟩ ∧
      (submitAll w (ws.map WriteInput.strVal) lookup sendRes).2.filter isSendBatch = [] := by
  induction ws with
  | nil =>
    intro w lookup sendRes hsend hlen hbytes
    simp [submitAll]
  | cons x rest ih =>
    intro w lookup sendRes hsend hlen hbytes
    have hlx : w.st.pendingWrites.length + (x :: rest).length =
        w.st.pendingWrites.length + 1 + rest.length := by
      simp
      omega
    have hbx : bytesOf (x :: rest) = x.utf8ByteSize + bytesOf rest := bytesOf_cons x rest
    have hx : readyForWrite w.st (some x) = true := by
      rw [readyForWrite_eq_true_iff]
      refine ⟨by rw [hlx] at hlen; omega, hsend, ?_⟩
      simp only [candBytes]
      rw [hbx] at hbytes
      omega
    have hs1 : readyForWrite
        { w.st with pendingWrites := w.st.pendingWrites ++ [x] } none = true := by
      rw [readyForWrite_eq_true_iff]
      refine ⟨?_, hsend, ?_⟩
      · simp only [List.length_append, List.length_cons, List.length_nil]
        rw [hlx] at hlen
        omega
      · simp only [candBytes, bytesOf_append, bytesOf_cons]
        rw [hbx] at hbytes
        simp only [show bytesOf [] = 0 from rfl]
        omega
    have hw : _write w (.strVal x) lookup sendRes =
        (⟨{ w.st with pendingWrites := w.st.pendingWrites ++ [x] }, w.deferred⟩,
          [Event.callbackInvoked, Event.bufferAppended]) := by
      simp [_write, coerceMessage, hx, queueWrite, hs1]
    have hstep : submitAll w ((x :: rest).map WriteInput.strVal) lookup sendRes =
        (match _write w (.strVal x) lookup sendRes with
         | (w1, evs1) =>
           match submitAll w1 (rest.map WriteInput.strVal) lookup sendRes with
           | (w2, evs2) => (w2, evs1 ++ evs2)) := rfl
    have ihx := ih ⟨{ w.st with pendingWrites := w.st.pendingWrites ++ [x] }, w.deferred⟩
      lookup sendRes hsend
      (by simp only [List.length_append, List.length_cons, List.length_nil]
          rw [hlx] at hlen
          omega)
      (by simp only [bytesOf_append, bytesOf_cons, show bytesOf [] = 0 from rfl]
          rw [hbx] at hbytes
          omega)
    rcases hrec : submitAll ⟨{ w.st with pendingWrites := w.st.pendingWrites ++ [x] },
        w.deferred⟩ (rest.map WriteInput.strVal) lookup sendRes with ⟨w2, evs2⟩
    rw [hrec] at ihx
    simp only at ihx
    obtain ⟨ih1, ih2⟩ := ihx
    rw [hstep]
    simp only [hw, hrec]
    refine ⟨?_, ?_⟩
    · simp only [ih1, List.append_assoc, List.singleton_append]
    · simp only [List.filter_append, ih2, List.append_nil]
      simp [isSendBatch, List.filter]

/-- C7 (confirmed): submitting `M < 10` string payloads whose doubled
total byte size is under the max to a fresh adapter admits each one with
no intermediate flush, and the `prefinish` hook then triggers exactly one
flush whose batch carries all `M` payloads, in order, each entry's id
being its stringified index within the batch starting at `"0"`. -/
theorem c7_end_flush (ws : List String) (url : String) (sendRes : Except String Unit)
    (hne : ws ≠ []) (hlen : ws.length < maxMessagesPerSend)
    (hbytes : 2 * bytesOf ws < maxMessageSize) :
    ((submitAll ⟨initState, []⟩ (ws.map WriteInput.strVal) (.ok url) sendRes).2 ++
      (prefinishFlush
        (submitAll ⟨initState, []⟩ (ws.map WriteInput.strVal) (.ok url) sendRes).1.st
        (.ok url) sendRes).2).filter isSendBatch =
      [Event.sendBatch (ws.enum.map fun p => SendEntry.mk (toString p.1) p.2)] := by
  obtain ⟨h1, h2⟩ := submitAll_strings ws ⟨initState, []⟩ (.ok url) sendRes rfl
    (by simpa [initState] using hlen)
    (by simpa [initState, show bytesOf [] = 0 from rfl] using hbytes)
  rw [List.filter_append, h2, h1]
  have hlen0 : ¬ ws.length = 0 := by simpa using hne
  cases sendRes <;>
    simp [prefinishFlush, processWrites, getUrl, initState, isSendBatch, hlen0, List.filter]

/-- Witness for C7: submitting `"a"`, `"b"`, `"c"` and closing the write
side yields exactly one `sendMessageBatch` call with three entries whose
ids are `"0"`, `"1"`, `"2"`. -/
theorem c7_end_flush_witness :
    ((submitAll ⟨initState, []⟩ (["a", "b", "c"].map WriteInput.strVal) (.ok "u")
        (.ok ())).2 ++
      (prefinishFlush
        (submitAll ⟨initState, []⟩ (["a", "b", "c"].map WriteInput.strVal) (.ok "u")
          (.ok ())).1.st
        (.ok "u") (.ok ())).2).filter isSendBatch =
      [Event.sendBatch [⟨"0", "a"⟩, ⟨"1", "b"⟩, ⟨"2", "c"⟩]] :=
  c7_end_flush ["a", "b", "c"] "u" (.ok ()) (by decide) (by decide) (by decide)

end SqStream
